import Mathlib

/-!
Verification of the typed, file-backed attribute cache (`TypedCache`).

The repository ships the test suite of the cache (tests/test_typed_cache.py,
tests/test_typed_cache_nested_dataclass.py) and two release scripts that are
out of scope.  The cache class itself is not among the shipped sources, so its
three operations (construction with auto-load, save, clear) are modelled from
the specification, with the behaviour pinned by the shipped tests where the
specification leaves a choice.

Modelling choices:
* Python values that can live in a record field are the inductive `PyValue`
  (None, int, str, bool, float as an uninterpreted literal, Path, and nested
  dataclass instances as `obj`).
* An instance is its attribute dictionary: an association list from attribute
  name to `PyValue`, in insertion order, with unique keys.  The location field
  is the entry named "path".
* The filesystem is an association list from path to `FileData`; a file either
  holds a pickled string-keyed mapping, is empty, or holds bytes that are not
  a valid pickle.  `pickleLoad` is the codec collaborator: it returns the
  mapping of a pickled file, fails with `eofError` on an empty file and with
  `unpicklingError` on garbage.
-/

/-- Values storable in a record field: Python None, int, str, bool, float
(kept as an uninterpreted literal string, since no operation of the cache
computes with floats), a filesystem path, and nested dataclass instances as a
class name with a field list. -/
inductive PyValue where
  | none
  | int (n : Int)
  | str (s : String)
  | bool (b : Bool)
  | float (lit : String)
  | path (p : String)
  | obj (cls : String) (fields : List (String × PyValue))

/-- The attribute dictionary of a Python instance: attribute names mapped to
values, in insertion order. -/
abbrev Attrs := List (String × PyValue)

/-- First-match association-list lookup, the model of reading an attribute or
a file. -/
def alookup {α : Type} : List (String × α) → String → Option α
  | [], _ => Option.none
  | (k, v) :: rest, n => if k = n then some v else alookup rest n

/-- Python setattr on an attribute dictionary: overwrite the binding in place
when the name is present, append it otherwise. -/
def setAttr : Attrs → String → PyValue → Attrs
  | [], n, v => [(n, v)]
  | (k, w) :: rest, n, v =>
    if k = n then (n, v) :: rest else (k, w) :: setAttr rest n v

/-- Set every entry of a loaded mapping on an instance, in order: the loop
`for k, v in data.items(): setattr(self, k, v)`. -/
def loadInto (a : Attrs) (d : Attrs) : Attrs :=
  d.foldl (fun acc kv => setAttr acc kv.1 kv.2) a

/-- Content of one backing file. -/
inductive FileData where
  | pickled (d : Attrs)
  | empty
  | garbage (bytes : String)

/-- The filesystem: existing paths mapped to their file content. -/
abbrev FS := List (String × FileData)

/-- Errors surfaced by the cache: configuration errors (ValueError with a
message) and the codec errors EOFError and UnpicklingError. -/
inductive PyError where
  | valueError (msg : String)
  | eofError
  | unpicklingError

/-- Read a file if it exists. -/
def fsRead (fs : FS) (p : String) : Option FileData :=
  alookup fs p

/-- Whether a path exists on the filesystem. -/
def fsExists (fs : FS) (p : String) : Bool :=
  (fsRead fs p).isSome

/-- Delete a path if present (unlink with missing-ok semantics). -/
def fsRemove (fs : FS) (p : String) : FS :=
  fs.filter (fun e => e.1 != p)

/-- Create or overwrite a file. -/
def fsWrite (fs : FS) (p : String) (fd : FileData) : FS :=
  (p, fd) :: fsRemove fs p

/-- The serialization collaborator on load: deserialize a file into a
mapping, failing with EOFError on an empty file and with UnpicklingError on
content that is not a valid pickle. -/
def pickleLoad : FileData → Except PyError Attrs
  | FileData.pickled d => Except.ok d
  | FileData.empty => Except.error PyError.eofError
  | FileData.garbage _ => Except.error PyError.unpicklingError

/-- Python str.endswith. -/
def strEndsWith (s suf : String) : Bool :=
  decide (suf.data.length ≤ s.data.length) &&
    decide (s.data.drop (s.data.length - suf.data.length) = suf.data)

/-- The configuration-error message of the suffix check, pinned by the test
test_initialization_invalid_path. -/
def suffixErrMsg : String := "Cache file must have a \x27.pickle\x27 suffix"

/-- The attribute dictionary right after dataclass field initialization: the
location field "path" followed by the remaining declared fields with their
supplied or default values. -/
def initAttrs (p : String) (inits : Attrs) : Attrs :=
  ("path", PyValue.path p) :: inits

/-- Modelled from the spec: construction of a `TypedCache` record (the class
body is not among the shipped sources; sections 4.1 Construction, 7, and the
tests pin it).  Dataclass init sets the declared fields, then the suffix of
the location is validated before any file access, then when the backing file
exists its pickled mapping is loaded and each entry is set on the instance;
a missing file leaves the fields as supplied, and codec errors propagate. -/
def construct (fs : FS) (p : String) (inits : Attrs) : Except PyError Attrs :=
  if strEndsWith p ".pickle" then
    match fsRead fs p with
    | Option.none => Except.ok (initAttrs p inits)
    | some fd =>
      match pickleLoad fd with
      | Except.error e => Except.error e
      | Except.ok d => Except.ok (loadInto (initAttrs p inits) d)
  else
    Except.error (PyError.valueError suffixErrMsg)

/-- Modelled from the spec: the mapping `save()` persists (sections 3 and 4.1
and test test_setting_undeclared_attributes): the attributes currently on the
instance that are declared fields of the record, without the location field.
-/
def saveDict (declared : List String) (a : Attrs) : Attrs :=
  a.filter (fun kv => (kv.1 != "path") && declared.contains kv.1)

/-- Modelled from the spec: `save()` of `TypedCache` (the class body is not
among the shipped sources; section 4.1 save).  It reads the location field of
the instance, serializes the filtered mapping and writes it to that path,
overwriting any previous file.  `Option.none` models the attribute error of
an instance without a usable location. -/
def save (declared : List String) (a : Attrs) (fs : FS) : Option FS :=
  match alookup a "path" with
  | some (PyValue.path p) =>
    some (fsWrite fs p (FileData.pickled (saveDict declared a)))
  | _ => Option.none

/-- Modelled from the spec: `clear()` of `TypedCache` (the class body is not
among the shipped sources; section 4.1 clear).  It deletes the backing file
when it exists, does nothing when it does not, and leaves the in-memory
attributes untouched; the pair returned is (attributes, filesystem) after the
call. -/
def clear (a : Attrs) (fs : FS) : Option (Attrs × FS) :=
  match alookup a "path" with
  | some (PyValue.path p) => some (a, fsRemove fs p)
  | _ => Option.none

/-! ### Association-list lemmas -/

theorem alookup_setAttr_self (a : Attrs) (n : String) (v : PyValue) :
    alookup (setAttr a n v) n = some v := by
  induction a with
  | nil => simp [setAttr, alookup]
  | cons kv rest ih =>
    obtain ⟨k, w⟩ := kv
    by_cases h : k = n
    · simp [setAttr, h, alookup]
    · simp [setAttr, h, alookup, ih]

theorem alookup_setAttr_ne (a : Attrs) (n m : String) (v : PyValue)
    (h : m ≠ n) : alookup (setAttr a n v) m = alookup a m := by
  have hnm : n ≠ m := Ne.symm h
  induction a with
  | nil => simp [setAttr, alookup, hnm]
  | cons kv rest ih =>
    obtain ⟨k, w⟩ := kv
    by_cases hk : k = n
    · subst hk
      simp [setAttr, alookup, hnm]
    · simp [setAttr, hk, alookup, ih]

theorem loadInto_nil (a : Attrs) : loadInto a [] = a := rfl

theorem loadInto_cons (a : Attrs) (k : String) (v : PyValue) (d : Attrs) :
    loadInto a ((k, v) :: d) = loadInto (setAttr a k v) d := rfl

theorem alookup_loadInto_not_mem (d : Attrs) (a : Attrs) (n : String)
    (h : n ∉ d.map Prod.fst) : alookup (loadInto a d) n = alookup a n := by
  induction d generalizing a with
  | nil => rfl
  | cons kv rest ih =>
    obtain ⟨k, v⟩ := kv
    simp only [List.map_cons, List.mem_cons] at h
    push_neg at h
    rw [loadInto_cons, ih _ h.2, alookup_setAttr_ne a k n v h.1]

theorem alookup_loadInto_mem (d : Attrs) (a : Attrs) (k : String)
    (v : PyValue) (hnd : (d.map Prod.fst).Nodup) (hmem : (k, v) ∈ d) :
    alookup (loadInto a d) k = some v := by
  induction d generalizing a with
  | nil => cases hmem
  | cons kv rest ih =>
    obtain ⟨k0, v0⟩ := kv
    simp only [List.map_cons, List.nodup_cons] at hnd
    rcases List.mem_cons.mp hmem with hh | hh
    · obtain ⟨hk, hv⟩ := Prod.mk.injEq .. ▸ hh
      subst hk
      subst hv
      rw [loadInto_cons, alookup_loadInto_not_mem _ _ _ hnd.1,
        alookup_setAttr_self]
    · exact loadInto_cons .. ▸ ih _ hnd.2 hh

theorem mem_of_alookup_eq_some {α : Type} (l : List (String × α)) (n : String)
    (v : α) (h : alookup l n = some v) : (n, v) ∈ l := by
  induction l with
  | nil => cases h
  | cons kv rest ih =>
    obtain ⟨k, w⟩ := kv
    by_cases hk : k = n
    · subst hk
      simp [alookup] at h
      simp [h]
    · simp [alookup, hk] at h
      exact List.mem_cons_of_mem _ (ih h)

theorem alookup_eq_none_of_not_mem {α : Type} (l : List (String × α))
    (n : String) (h : n ∉ l.map Prod.fst) : alookup l n = Option.none := by
  induction l with
  | nil => rfl
  | cons kv rest ih =>
    obtain ⟨k, w⟩ := kv
    simp only [List.map_cons, List.mem_cons] at h
    push_neg at h
    have hk : k ≠ n := Ne.symm h.1
    simp [alookup, hk, ih h.2]

theorem map_fst_filter_keydep {α : Type} (q : String → Bool)
    (l : List (String × α)) :
    (l.filter (fun kv => q kv.1)).map Prod.fst = (l.map Prod.fst).filter q := by
  induction l with
  | nil => rfl
  | cons kv rest ih =>
    obtain ⟨k, w⟩ := kv
    by_cases h : q k
    · simp [List.filter_cons, h, ih]
    · simp [List.filter_cons, h, ih]

theorem nodup_keys_filter {α : Type} (q : String × α → Bool)
    (l : List (String × α)) (h : (l.map Prod.fst).Nodup) :
    ((l.filter q).map Prod.fst).Nodup :=
  h.sublist ((List.filter_sublist l).map Prod.fst)

theorem fsRead_fsRemove_self (fs : FS) (p : String) :
    fsRead (fsRemove fs p) p = Option.none := by
  induction fs with
  | nil => rfl
  | cons e rest ih =>
    obtain ⟨q, fd⟩ := e
    by_cases h : q = p
    · simp [fsRemove, List.filter_cons, h] at ih ⊢
      exact ih
    · simp only [fsRemove, List.filter_cons] at ih ⊢
      simp only [bne_iff_ne, ne_eq, h, not_false_iff, if_pos]
      simpa [fsRead, alookup, h] using ih

theorem fsRemove_of_not_exists (fs : FS) (p : String)
    (h : fsRead fs p = Option.none) : fsRemove fs p = fs := by
  induction fs with
  | nil => rfl
  | cons e rest ih =>
    obtain ⟨q, fd⟩ := e
    simp only [fsRead, alookup] at h
    by_cases hq : q = p
    · simp [hq] at h
    · rw [if_neg hq] at h
      have hrest : fsRemove rest p = rest := ih h
      simp only [fsRemove, List.filter_cons] at hrest ⊢
      simp [bne_iff_ne, hq, hrest]

theorem fsRead_fsWrite_self (fs : FS) (p : String) (fd : FileData) :
    fsRead (fsWrite fs p fd) p = some fd := by
  simp [fsWrite, fsRead, alookup]

/-! ### Claim theorems -/

/-- C1: round-trip — for every record instance whose declared fields are set
to serializable values (nested dataclass values included), `save()` followed
by constructing a new instance at the same location yields an instance whose
declared field values equal those set before `save()`. -/
theorem roundtrip_save_construct (declared : List String) (a inits : Attrs)
    (p : String) (fs fs2 : FS) (n : String) (v : PyValue)
    (hnodup : (a.map Prod.fst).Nodup)
    (hpath : alookup a "path" = some (PyValue.path p))
    (hsuffix : strEndsWith p ".pickle" = true)
    (hsave : save declared a fs = some fs2)
    (hn : declared.contains n = true) (hnp : n ≠ "path")
    (hv : alookup a n = some v) :
    ∃ a2, construct fs2 p inits = Except.ok a2 ∧ alookup a2 n = some v := by
  simp only [save, hpath] at hsave
  obtain rfl := Option.some_injective _ hsave
  refine ⟨loadInto (initAttrs p inits) (saveDict declared a), ?_, ?_⟩
  · simp [construct, hsuffix, fsRead_fsWrite_self, pickleLoad]
  · have hmem : (n, v) ∈ saveDict declared a := by
      refine List.mem_filter.mpr ⟨mem_of_alookup_eq_some a n v hv, ?_⟩
      have hn2 : n ∈ declared := by simpa using hn
      simp [bne_iff_ne, hnp, hn2]
    exact alookup_loadInto_mem _ _ _ _ (nodup_keys_filter _ a hnodup) hmem

theorem roundtrip_save_construct_witness :
    ∃ a2,
      construct
        [("/tmp/cache.pickle", FileData.pickled
          [("a", PyValue.int 42),
            ("nested", PyValue.obj "NestedData"
              [("x", PyValue.int 10), ("y", PyValue.str "nested")])])]
        "/tmp/cache.pickle"
        [("a", PyValue.none), ("nested", PyValue.none)] = Except.ok a2 ∧
      alookup a2 "nested" = some (PyValue.obj "NestedData"
        [("x", PyValue.int 10), ("y", PyValue.str "nested")]) :=
  roundtrip_save_construct ["path", "a", "nested"]
    [("path", PyValue.path "/tmp/cache.pickle"), ("a", PyValue.int 42),
      ("nested", PyValue.obj "NestedData"
        [("x", PyValue.int 10), ("y", PyValue.str "nested")])]
    [("a", PyValue.none), ("nested", PyValue.none)]
    "/tmp/cache.pickle" [] _ "nested" _
    (by decide) rfl (by decide) rfl (by decide) (by decide) rfl

/-- C2 counterexample: an instance holding the dynamically added attribute
"e" (set after construction, not declared) whose persisted mapping, produced
by `save()`, has key list ["a"], while the attribute names of the instance
minus the location field are ["a", "e"] — so the persisted key set is not
"every attribute currently present on the instance except the location
field". -/
theorem save_all_attrs_counterexample :
    save ["path", "a"]
        [("path", PyValue.path "c.pickle"), ("a", PyValue.int 1),
          ("e", PyValue.str "undeclared")] [] =
      some [("c.pickle", FileData.pickled [("a", PyValue.int 1)])] ∧
    ¬ ([("a", PyValue.int 1)].map Prod.fst =
        ([("path", PyValue.path "c.pickle"), ("a", PyValue.int 1),
          ("e", PyValue.str "undeclared")].map
            (Prod.fst (α := String) (β := PyValue))).filter
          (fun k => k != "path")) :=
  ⟨rfl, by decide⟩

/-- C2 amended: for every save, the persisted mapping key list is exactly the
instance attribute names restricted to the declared fields, minus the
location field; attributes set dynamically after construction (undeclared)
are excluded. -/
theorem save_keys_declared_only (declared : List String) (a : Attrs)
    (fs fs2 : FS) (p : String)
    (hpath : alookup a "path" = some (PyValue.path p))
    (hsave : save declared a fs = some fs2) :
    ∃ d, fsRead fs2 p = some (FileData.pickled d) ∧
      d.map Prod.fst =
        (a.map Prod.fst).filter
          (fun k => (k != "path") && declared.contains k) := by
  simp only [save, hpath] at hsave
  obtain rfl := Option.some_injective _ hsave
  exact ⟨saveDict declared a, fsRead_fsWrite_self .. ,
    map_fst_filter_keydep (fun k => (k != "path") && declared.contains k) a⟩

theorem save_keys_declared_only_witness :
    ∃ d,
      fsRead ((save ["path", "a"]
          [("path", PyValue.path "c.pickle"), ("a", PyValue.int 1),
            ("e", PyValue.str "undeclared")] []).getD []) "c.pickle" =
        some (FileData.pickled d) ∧
      d.map Prod.fst =
        (([("path", PyValue.path "c.pickle"), ("a", PyValue.int 1),
            ("e", PyValue.str "undeclared")] : Attrs).map Prod.fst).filter
          (fun k => (k != "path") && (["path", "a"].contains k)) :=
  save_keys_declared_only ["path", "a"]
    [("path", PyValue.path "c.pickle"), ("a", PyValue.int 1),
      ("e", PyValue.str "undeclared")] [] _ "c.pickle" rfl rfl

/-- C3: invariant of every save — the persisted mapping never contains the
location field name "path", whatever the location value is, and never
contains an entry for an attribute the record did not declare. -/
theorem save_excludes_path_and_undeclared (declared : List String) (a : Attrs)
    (fs fs2 : FS) (p : String)
    (hpath : alookup a "path" = some (PyValue.path p))
    (hsave : save declared a fs = some fs2) :
    ∃ d, fsRead fs2 p = some (FileData.pickled d) ∧
      "path" ∉ d.map Prod.fst ∧
      ∀ k ∈ d.map Prod.fst, declared.contains k = true := by
  simp only [save, hpath] at hsave
  obtain rfl := Option.some_injective _ hsave
  refine ⟨saveDict declared a, fsRead_fsWrite_self .., ?_, ?_⟩
  · intro hmem
    obtain ⟨kv, hkv, hfst⟩ := List.mem_map.mp hmem
    have h2 := (List.mem_filter.mp hkv).2
    rw [hfst] at h2
    simp at h2
  · intro k hk
    obtain ⟨kv, hkv, hfst⟩ := List.mem_map.mp hk
    have h2 := (List.mem_filter.mp hkv).2
    simp only [Bool.and_eq_true] at h2
    rw [← hfst]
    simpa using h2.2

theorem save_excludes_path_and_undeclared_witness :
    ∃ d,
      fsRead ((save ["path", "a"]
          [("path", PyValue.path "c.pickle"), ("a", PyValue.int 1),
            ("e", PyValue.str "undeclared")] []).getD []) "c.pickle" =
        some (FileData.pickled d) ∧
      "path" ∉ d.map Prod.fst ∧
      ∀ k ∈ d.map Prod.fst, (["path", "a"].contains k) = true :=
  save_excludes_path_and_undeclared ["path", "a"]
    [("path", PyValue.path "c.pickle"), ("a", PyValue.int 1),
      ("e", PyValue.str "undeclared")] [] _ "c.pickle" rfl rfl

/-- C4: for every location whose string form does not end in the required
suffix, construction fails with the configuration ValueError, and the outcome
is the same on every filesystem state — no file is read or written before the
failure. -/
theorem construct_invalid_suffix_fails (fs : FS) (p : String) (inits : Attrs)
    (h : strEndsWith p ".pickle" = false) :
    construct fs p inits = Except.error (PyError.valueError suffixErrMsg) ∧
    ∀ fs2 : FS, construct fs2 p inits = construct fs p inits := by
  constructor
  · simp [construct, h]
  · intro fs2
    simp [construct, h]

theorem construct_invalid_suffix_fails_witness :
    construct [("cache.invalid", FileData.empty)] "cache.invalid"
        [("a", PyValue.none)] =
      Except.error (PyError.valueError suffixErrMsg) ∧
    ∀ fs2 : FS, construct fs2 "cache.invalid" [("a", PyValue.none)] =
      construct [("cache.invalid", FileData.empty)] "cache.invalid"
        [("a", PyValue.none)] :=
  construct_invalid_suffix_fails [("cache.invalid", FileData.empty)]
    "cache.invalid" [("a", PyValue.none)] (by decide)

/-- C5: when construction finds an existing backing file that deserializes to
a mapping, every key of the mapping becomes a readable attribute of the
record holding the mapping value, the record declaring the key or not. -/
theorem construct_loads_every_key (fs : FS) (p : String) (inits d : Attrs)
    (k : String) (v : PyValue)
    (hsuffix : strEndsWith p ".pickle" = true)
    (hfile : fsRead fs p = some (FileData.pickled d))
    (hnodup : (d.map Prod.fst).Nodup)
    (hkv : (k, v) ∈ d) :
    ∃ a2, construct fs p inits = Except.ok a2 ∧ alookup a2 k = some v := by
  refine ⟨loadInto (initAttrs p inits) d, ?_, ?_⟩
  · simp [construct, hsuffix, hfile, pickleLoad]
  · exact alookup_loadInto_mem d _ k v hnodup hkv

theorem construct_loads_every_key_witness :
    ∃ a2,
      construct
        [("c.pickle", FileData.pickled
          [("x", PyValue.int 123), ("y", PyValue.str "abc")])]
        "c.pickle" [("a", PyValue.none)] = Except.ok a2 ∧
      alookup a2 "x" = some (PyValue.int 123) :=
  construct_loads_every_key
    [("c.pickle", FileData.pickled
      [("x", PyValue.int 123), ("y", PyValue.str "abc")])]
    "c.pickle" [("a", PyValue.none)]
    [("x", PyValue.int 123), ("y", PyValue.str "abc")]
    "x" _ (by decide) rfl (by decide) (by simp)

/-- C6: partial-load merge — after a successful load, every name absent from
the loaded mapping keeps its construction-time value (declared fields absent
from the mapping keep their default), and every entry of the mapping
overwrites the corresponding attribute. -/
theorem construct_partial_load_merge (fs : FS) (p : String) (inits d : Attrs)
    (hsuffix : strEndsWith p ".pickle" = true)
    (hfile : fsRead fs p = some (FileData.pickled d))
    (hnodup : (d.map Prod.fst).Nodup) :
    ∃ a2, construct fs p inits = Except.ok a2 ∧
      (∀ n, n ∉ d.map Prod.fst →
        alookup a2 n = alookup (initAttrs p inits) n) ∧
      (∀ k v, (k, v) ∈ d → alookup a2 k = some v) := by
  refine ⟨loadInto (initAttrs p inits) d, ?_, ?_, ?_⟩
  · simp [construct, hsuffix, hfile, pickleLoad]
  · exact fun n hn => alookup_loadInto_not_mem d _ n hn
  · exact fun k v hkv => alookup_loadInto_mem d _ k v hnodup hkv

theorem construct_partial_load_merge_witness :
    ∃ a2,
      construct
        [("c.pickle", FileData.pickled
          [("a", PyValue.int 100), ("c", PyValue.str "partial")])]
        "c.pickle"
        [("a", PyValue.none), ("b", PyValue.none), ("c", PyValue.none),
          ("d", PyValue.none)] = Except.ok a2 ∧
      (∀ n, n ∉ (([("a", PyValue.int 100),
          ("c", PyValue.str "partial")] : Attrs).map Prod.fst) →
        alookup a2 n =
          alookup (initAttrs "c.pickle"
            [("a", PyValue.none), ("b", PyValue.none), ("c", PyValue.none),
              ("d", PyValue.none)]) n) ∧
      (∀ k v, (k, v) ∈ ([("a", PyValue.int 100),
          ("c", PyValue.str "partial")] : Attrs) → alookup a2 k = some v) :=
  construct_partial_load_merge
    [("c.pickle", FileData.pickled
      [("a", PyValue.int 100), ("c", PyValue.str "partial")])]
    "c.pickle"
    [("a", PyValue.none), ("b", PyValue.none), ("c", PyValue.none),
      ("d", PyValue.none)]
    [("a", PyValue.int 100), ("c", PyValue.str "partial")]
    (by decide) rfl (by decide)

/-- C7: constructing against a location (with the required suffix) whose file
does not exist succeeds and leaves every declared field at its supplied or
default value. -/
theorem construct_missing_file_defaults (fs : FS) (p : String) (inits : Attrs)
    (hsuffix : strEndsWith p ".pickle" = true)
    (hmissing : fsRead fs p = Option.none) :
    construct fs p inits = Except.ok (initAttrs p inits) := by
  simp [construct, hsuffix, hmissing]

theorem construct_missing_file_defaults_witness :
    construct [("other.pickle", FileData.empty)] "missing_cache.pickle"
        [("a", PyValue.none), ("b", PyValue.none)] =
      Except.ok (initAttrs "missing_cache.pickle"
        [("a", PyValue.none), ("b", PyValue.none)]) :=
  construct_missing_file_defaults [("other.pickle", FileData.empty)]
    "missing_cache.pickle" [("a", PyValue.none), ("b", PyValue.none)]
    (by decide) rfl

/-- C8: constructing against an existing backing file that is empty or whose
content cannot be deserialized propagates the underlying deserialization
error of the codec; construction does not complete with an instance. -/
theorem construct_deserialize_error_propagates (fs : FS) (p : String)
    (inits : Attrs) (fd : FileData) (e : PyError)
    (hsuffix : strEndsWith p ".pickle" = true)
    (hfile : fsRead fs p = some fd)
    (herr : pickleLoad fd = Except.error e) :
    construct fs p inits = Except.error e := by
  simp [construct, hsuffix, hfile, herr]

theorem construct_deserialize_error_propagates_witness :
    construct [("empty_cache.pickle", FileData.empty)] "empty_cache.pickle"
        [("a", PyValue.none)] = Except.error PyError.eofError ∧
    construct [("c.pickle", FileData.garbage "not a valid pickle")] "c.pickle"
        [("a", PyValue.none)] = Except.error PyError.unpicklingError :=
  ⟨construct_deserialize_error_propagates [("empty_cache.pickle",
      FileData.empty)] "empty_cache.pickle" [("a", PyValue.none)]
      FileData.empty PyError.eofError (by decide) rfl rfl,
    construct_deserialize_error_propagates [("c.pickle",
      FileData.garbage "not a valid pickle")] "c.pickle" [("a", PyValue.none)]
      (FileData.garbage "not a valid pickle") PyError.unpicklingError
      (by decide) rfl rfl⟩

/-- C9: `clear()` never raises whether or not the backing file exists, leaves
the in-memory attributes unchanged, removes the file when present, is a no-op
on the filesystem when the file is absent, and a subsequent construction at
that location behaves as if the file never existed. -/
theorem clear_removes_and_preserves (a : Attrs) (fs : FS) (p : String)
    (hpath : alookup a "path" = some (PyValue.path p)) :
    ∃ fs2, clear a fs = some (a, fs2) ∧
      fsExists fs2 p = false ∧
      (fsExists fs p = false → fs2 = fs) ∧
      (∀ inits, strEndsWith p ".pickle" = true →
        construct fs2 p inits = Except.ok (initAttrs p inits)) := by
  refine ⟨fsRemove fs p, ?_, ?_, ?_, ?_⟩
  · simp [clear, hpath]
  · simp [fsExists, fsRead_fsRemove_self]
  · intro h
    apply fsRemove_of_not_exists
    cases hval : fsRead fs p with
    | none => rfl
    | some fd =>
      rw [fsExists, hval] at h
      exact Bool.noConfusion h
  · intro inits hs
    simp [construct, hs, fsRead_fsRemove_self]

theorem clear_removes_and_preserves_witness :
    ∃ fs2,
      clear [("path", PyValue.path "c.pickle"), ("a", PyValue.int 100)]
          [("c.pickle", FileData.pickled [("a", PyValue.int 100)])] =
        some ([("path", PyValue.path "c.pickle"), ("a", PyValue.int 100)],
          fs2) ∧
      fsExists fs2 "c.pickle" = false ∧
      (fsExists [("c.pickle", FileData.pickled [("a", PyValue.int 100)])]
          "c.pickle" = false →
        fs2 = [("c.pickle", FileData.pickled [("a", PyValue.int 100)])]) ∧
      (∀ inits, strEndsWith "c.pickle" ".pickle" = true →
        construct fs2 "c.pickle" inits =
          Except.ok (initAttrs "c.pickle" inits)) :=
  clear_removes_and_preserves
    [("path", PyValue.path "c.pickle"), ("a", PyValue.int 100)]
    [("c.pickle", FileData.pickled [("a", PyValue.int 100)])] "c.pickle" rfl

/-- C10: the required suffix is exactly .pickle and the configuration error
is a ValueError carrying the message of the test suite; a location ending in
.pickle passes validation, so construction never fails with a ValueError for
it. -/
theorem suffix_check_exact (fs : FS) (inits : Attrs) (p : String) :
    (strEndsWith p ".pickle" = false →
      construct fs p inits = Except.error (PyError.valueError
        "Cache file must have a \x27.pickle\x27 suffix")) ∧
    (strEndsWith p ".pickle" = true →
      ∀ msg, construct fs p inits ≠
        Except.error (PyError.valueError msg)) := by
  constructor
  · intro h
    simp [construct, h, suffixErrMsg]
  · intro h msg
    simp only [construct, h, if_true]
    cases hval : fsRead fs p with
    | none => simp
    | some fd => cases fd <;> simp [pickleLoad]

theorem suffix_check_exact_witness :
    construct [] "cache.invalid" [] =
      Except.error (PyError.valueError
        "Cache file must have a \x27.pickle\x27 suffix") ∧
    ∀ msg, construct [] "cache.pickle" [] ≠
      Except.error (PyError.valueError msg) :=
  ⟨(suffix_check_exact [] [] "cache.invalid").1 (by decide),
    fun msg => (suffix_check_exact [] [] "cache.pickle").2 (by decide) msg⟩
